import Mathlib

/-!
Verification of the prysm initial chain-synchronization engine against its
natural-language specification.

The shallow embedding below follows the repository's code. The initial-sync
service body and the beacon-chain db body are not present in the source tree
(only their tests are), so those operations are modelled from the spec,
faithful to its words and checked against the tests that are present
(`beacon-chain/sync/initial-sync/service_test.go`, `beacon-chain/db/block_test.go`).
The message-safety wrapper is embedded directly from
`shared/messagehandler/messagehandler.go`.
-/

namespace InitialSync

/-- A beacon block as the sync engine sees it: its claimed slot and its parent
reference (a 32-byte root, modelled as a natural number). -/
structure Block where
  slot : Nat
  parentRoot : Nat
deriving DecidableEq, Repr

/-- Canonical hash of a block: an injective encoding of its fields, standing in
for `hashutil.HashBeaconBlock`. -/
def hashBlock (b : Block) : Nat :=
  Nat.pair b.slot b.parentRoot

/-- A beacon state snapshot, as compared by the state ingestion pipeline and
stored by `updateChainHead`. -/
structure BeaconState where
  finalizedEpoch : Nat
  justifiedEpoch : Nat
deriving DecidableEq, Repr

/-- `params.BeaconConfig().SlotsPerEpoch`. -/
def slotsPerEpoch : Nat := 64

/-- Modelled from the spec: the persistent block store interface of §6
(`beacon-chain/db`, whose body is absent from the tree; `db/block_test.go`
exercises it). `saved` is the set of persisted blocks, `head` the chain head. -/
structure Store where
  saved : List Block
  head : Block
deriving DecidableEq, Repr

/-- Modelled from the spec: `saveBlock(block)` appends the block to the store. -/
def Store.saveBlock (db : Store) (b : Block) : Store :=
  { db with saved := b :: db.saved }

/-- Modelled from the spec: `updateChainHead(block, state)` fails with an
explicit error if the block is not already saved, otherwise records the block
as the new chain head. -/
def Store.updateChainHead (db : Store) (b : Block) (st : BeaconState) : Except String Store :=
  if b ∈ db.saved then
    Except.ok { db with head := b }
  else
    Except.error "expected block to have been saved before updating head"

/-- Modelled from the spec: `chainHead()` returns the current head block. -/
def Store.chainHead (db : Store) : Block := db.head

/-- Modelled from the spec: the Chain State Tracker of §4.2,
`{ currentSlot, highestObservedSlot }`. -/
structure Tracker where
  currentSlot : Nat
  highestObservedSlot : Nat
deriving DecidableEq, Repr

/-- Modelled from the spec: `observe(slot)` sets
`highestObservedSlot = max(highestObservedSlot, slot)`, unconditionally. -/
def Tracker.observe (t : Tracker) (slot : Nat) : Tracker :=
  { t with highestObservedSlot := max t.highestObservedSlot slot }

/-- Modelled from the spec: `advance(slot)` sets `currentSlot = slot` only if
`slot > currentSlot`; stale or duplicate advances are silently ignored. -/
def Tracker.advance (t : Tracker) (slot : Nat) : Tracker :=
  if t.currentSlot < slot then { t with currentSlot := slot } else t

/-- Modelled from the spec: `isCaughtUp()` returns
`currentSlot >= highestObservedSlot`. -/
def Tracker.isCaughtUp (t : Tracker) : Bool :=
  t.highestObservedSlot ≤ t.currentSlot

/-- The tracker invariant of §3: `currentSlot ≤ highestObservedSlot`. -/
def Tracker.inv (t : Tracker) : Prop :=
  t.currentSlot ≤ t.highestObservedSlot

instance (t : Tracker) : Decidable t.inv := by
  unfold Tracker.inv; infer_instance

/-- The engine state owned by the run-loop worker: the store handle, the
Chain State Tracker and the current `SyncTarget` (if any). -/
structure SyncState where
  store : Store
  tracker : Tracker
  target : Option BeaconState
deriving DecidableEq, Repr

/-- Engine state at construction: the genesis/local-head block is already in
the store and is the chain head; the tracker starts at its slot; no sync
target is set yet. -/
def SyncState.init (g : Block) : SyncState :=
  { store := { saved := [g], head := g }
    tracker := { currentSlot := g.slot, highestObservedSlot := g.slot }
    target := none }

/-- Modelled from the spec: `processBlock(block)` of §4.3 (the initial-sync
service body is absent from the tree; `service_test.go` exercises it).
It records `observe(block.slot)`; a block whose slot is at most `currentSlot`
is a duplicate and is ignored; a block whose slot is `currentSlot + 1`, or
whose parent reference matches the hash of the local chain head (§9: skip-slot
tolerance), is persisted, becomes the new head, and `advance(block.slot)` is
called; any other block is logged as out-of-order and dropped. -/
def processBlock (s : SyncState) (b : Block) : SyncState :=
  let t := s.tracker.observe b.slot
  if b.slot ≤ t.currentSlot then
    { s with tracker := t }
  else if b.slot = t.currentSlot + 1 ∨ b.parentRoot = hashBlock s.store.head then
    { s with
        store := { s.store.saveBlock b with head := b }
        tracker := t.advance b.slot }
  else
    { s with tracker := t }

/-- Modelled from the spec: `processBatch(blocks)` of §4.3 applies
`processBlock` to each element of the ordered sequence in turn; an
individual rejection never short-circuits the rest of the batch. -/
def processBatch (s : SyncState) (blocks : List Block) : SyncState :=
  blocks.foldl processBlock s

/-- Modelled from the spec: the acceptance rule of §4.4 — accept if no target
is set yet, or if the incoming snapshot's finalized epoch is strictly greater,
or (ties on finalized epoch) its justified epoch is strictly greater. -/
def acceptTarget (cur : Option BeaconState) (st : BeaconState) : Bool :=
  match cur with
  | none => true
  | some t =>
      decide (t.finalizedEpoch < st.finalizedEpoch
        ∨ (st.finalizedEpoch = t.finalizedEpoch ∧ t.justifiedEpoch < st.justifiedEpoch))

/-- Modelled from the spec: `processState(stateSnapshot)` of §4.4. On
acceptance it replaces `SyncTarget` wholesale and records the
`highestObservedSlot` candidate `finalizedEpoch × slotsPerEpoch`; a rejected
snapshot is logged and discarded, leaving the target unchanged. -/
def processState (s : SyncState) (st : BeaconState) : SyncState :=
  if acceptTarget s.target st then
    { s with
        target := some st
        tracker := s.tracker.observe (st.finalizedEpoch * slotsPerEpoch) }
  else
    s

/-- An inbound message dispatched by the run loop to the ingestion pipelines:
a block delivery or a state-snapshot delivery. -/
inductive Msg
  | block (b : Block)
  | state (st : BeaconState)
deriving DecidableEq, Repr

/-- Dispatch of one inbound message to the matching ingestion pipeline. -/
def applyMsg (s : SyncState) (m : Msg) : SyncState :=
  match m with
  | .block b => processBlock s b
  | .state st => processState s st

/-- Processing of a sequence of inbound messages, in arrival order. -/
def runMsgs (s : SyncState) (msgs : List Msg) : SyncState :=
  msgs.foldl applyMsg s

/-- A raw call to the Chain State Tracker, as named by §4.2. -/
inductive TrackerCall
  | advance (slot : Nat)
  | observe (slot : Nat)
deriving DecidableEq, Repr

/-- Application of one raw tracker call. -/
def applyCall (t : Tracker) (c : TrackerCall) : Tracker :=
  match c with
  | .advance slot => t.advance slot
  | .observe slot => t.observe slot

/-- Application of a sequence of raw tracker calls. -/
def runCalls (t : Tracker) (cs : List TrackerCall) : Tracker :=
  cs.foldl applyCall t

/-- A block chained off a given head, followed by blocks chained off each
previously built block: the delivery pattern of the skipped-slots scenario,
where every delivered block's parent reference is the hash of the previously
accepted block. -/
def chainBlocks (head : Block) : List Nat → List Block
  | [] => []
  | s :: rest =>
      let b : Block := { slot := s, parentRoot := hashBlock head }
      b :: chainBlocks b rest

/-- The slots delivered in the skipped-slots scenario: 1..20 with
{4, 6, 13, 17} never delivered. -/
def skippedScenarioSlots : List Nat :=
  [1, 2, 3, 5, 7, 8, 9, 10, 11, 12, 14, 15, 16, 18, 19, 20]

/-- The batch of 20 sequential blocks at slots 1..20 delivered at once
(`TestProcessingBatchedBlocks_OK` sets only the slot field). -/
def sequentialBatch : List Block :=
  ([1, 2, 3, 4, 5, 6, 7, 8, 9, 10, 11, 12, 13, 14, 15, 16, 17, 18, 19, 20] : List Nat).map
    (fun s => { slot := s, parentRoot := 0 })

/-- Strictly ascending slot sequences starting above `cur`. -/
def chainedSlots (cur : Nat) : List Nat → Bool
  | [] => true
  | x :: rest => decide (cur < x) && chainedSlots x rest

/-- Slot sequences that step by exactly one from `cur`. -/
def stepSlots (cur : Nat) : List Nat → Bool
  | [] => true
  | x :: rest => decide (x = cur + 1) && stepSlots x rest

/-- An event multiplexed by the run loop of §4.6: an inbound block message, an
inbound state message, a delivery whose handler fails or panics (recovered by
the safety wrapper), a periodic timer tick, or the cancellation signal. -/
inductive SyncEvent
  | blockMsg (b : Block)
  | stateMsg (st : BeaconState)
  | badMsg
  | tick
  | cancel
deriving DecidableEq, Repr

/-- Why the run loop returned: catch-up handoff or cancellation. -/
inductive ExitReason
  | handoff
  | cancelled
deriving DecidableEq, Repr

/-- Outcome of dispatching one event inside the run loop. -/
inductive StepResult
  | next (s : SyncState)
  | exit (r : ExitReason)
deriving DecidableEq, Repr

/-- Modelled from the spec: one iteration of the run loop of §4.6 (the
initial-sync service body is absent from the tree). Cancellation returns
immediately; a timer tick returns with the handoff event exactly when
`isCaughtUp()` holds (otherwise the scheduler re-requests and the loop
continues); block and state deliveries are dispatched through the safety
wrapper and never terminate the loop, a failing handler included. -/
def loopStep (s : SyncState) (e : SyncEvent) : StepResult :=
  match e with
  | .cancel => .exit .cancelled
  | .tick => if s.tracker.isCaughtUp then .exit .handoff else .next s
  | .blockMsg b => .next (processBlock s b)
  | .stateMsg st => .next (processState s st)
  | .badMsg => .next s

/-- Modelled from the spec: the run loop consumes events in order until a step
exits; `none` means the event stream ended with the loop still running. -/
def runLoop (s : SyncState) : List SyncEvent → Option ExitReason
  | [] => none
  | e :: rest =>
      match loopStep s e with
      | .next s' => runLoop s' rest
      | .exit r => some r

end InitialSync

namespace MessageHandler

/-- A protobuf message, abstracted to its textual rendering
(`proto.MarshalTextString`). -/
structure ProtoMessage where
  text : String
deriving DecidableEq, Repr

/-- `proto.MarshalTextString(msg)`. -/
def marshalTextString (m : ProtoMessage) : String := m.text

/-- The behaviour of one handler invocation: it either returns normally or
panics with a recovered value. -/
inductive HandlerRun
  | ok
  | panicked (r : String)
deriving DecidableEq, Repr

/-- A Go `context.Context` as the wrapper inspects it: whether a trace span is
attached (`trace.FromContext(ctx) != nil`). A `nil` context is `Option.none`
at the call site. -/
structure GoContext where
  hasSpan : Bool
deriving DecidableEq, Repr

/-- The externally observable outcome of `SafelyHandleMessage`: whether a
panic escaped to the caller, the logged panic value and logged message
rendering (if a panic was recovered), and whether the trace span was marked
as failed. -/
structure HandlerOutcome where
  panicPropagated : Bool
  loggedPanicValue : Option String
  loggedMsgText : Option String
  spanMarkedFailed : Bool
deriving DecidableEq, Repr

/-- `SafelyHandleMessage` from `shared/messagehandler/messagehandler.go`:
invokes `fn(msg)` under a deferred `recover()`. On a panic it logs the panic
value together with `proto.MarshalTextString(msg)`, or the sentinel
`"message contains no data"` when `msg` is nil; then, only when `ctx` is not
nil and a span is attached, marks the span as failed. It always returns
normally. -/
def SafelyHandleMessage (ctx : Option GoContext)
    (fn : Option ProtoMessage → HandlerRun) (msg : Option ProtoMessage) : HandlerOutcome :=
  match fn msg with
  | .ok =>
      { panicPropagated := false
        loggedPanicValue := none
        loggedMsgText := none
        spanMarkedFailed := false }
  | .panicked r =>
      let printedMsg :=
        match msg with
        | none => "message contains no data"
        | some m => marshalTextString m
      let spanFailed :=
        match ctx with
        | none => false
        | some c => c.hasSpan
      { panicPropagated := false
        loggedPanicValue := some r
        loggedMsgText := some printedMsg
        spanMarkedFailed := spanFailed }

/-- A dispatch loop that feeds messages to the wrapped handler one at a time
and would stop early if a panic ever escaped the wrapper. -/
def dispatchAll (ctx : Option GoContext) (fn : Option ProtoMessage → HandlerRun) :
    List (Option ProtoMessage) → List HandlerOutcome
  | [] => []
  | m :: rest =>
      let o := SafelyHandleMessage ctx fn m
      if o.panicPropagated then [o]
      else o :: dispatchAll ctx fn rest

end MessageHandler

open InitialSync MessageHandler

/-- Claim C7: for every handler and message, `SafelyHandleMessage` returns
normally even when the handler panics: the panic is recovered and logged
together with a textual rendering of the message — or the sentinel
"message contains no data" marker when the message is absent — and never
propagates to the caller, so a handler that panics on every invocation never
stops the run loop from processing subsequent messages. -/
theorem c7_safelyHandleMessage_contains_panics
    (ctx : Option GoContext) (fn : Option ProtoMessage → HandlerRun)
    (msg : Option ProtoMessage) :
    (SafelyHandleMessage ctx fn msg).panicPropagated = false
    ∧ (∀ r, fn msg = .panicked r →
        (SafelyHandleMessage ctx fn msg).loggedPanicValue = some r
        ∧ (SafelyHandleMessage ctx fn msg).loggedMsgText =
            some (match msg with
                  | none => "message contains no data"
                  | some m => marshalTextString m))
    ∧ (∀ msgs, (dispatchAll ctx fn msgs).length = msgs.length) := by
  refine ⟨?_, ?_, ?_⟩
  · cases h : fn msg <;> simp [SafelyHandleMessage, h]
  · intro r hr
    cases msg <;> simp [SafelyHandleMessage, hr, marshalTextString]
  · intro msgs
    induction msgs with
    | nil => rfl
    | cons m rest ih =>
        cases h : fn m <;> simp [dispatchAll, SafelyHandleMessage, h, ih]

/-- Witness for C7 at a concrete always-panicking handler and an absent
message: the panic value and the sentinel marker are logged. -/
theorem c7_safelyHandleMessage_contains_panics_witness :
    (SafelyHandleMessage (some { hasSpan := true })
        (fun _ => .panicked "bad!") none).loggedPanicValue = some "bad!"
    ∧ (SafelyHandleMessage (some { hasSpan := true })
        (fun _ => .panicked "bad!") none).loggedMsgText = some "message contains no data" := by
  have h := (c7_safelyHandleMessage_contains_panics (some { hasSpan := true })
      (fun _ => .panicked "bad!") none).2.1 "bad!" rfl
  exact ⟨h.1, h.2⟩

/-- Claim C10: `SafelyHandleMessage` is total in its context argument: with a
nil context and a panicking handler it still recovers the panic, logs it and
returns normally, and the trace-span update is skipped (the nil context is
never dereferenced). -/
theorem c10_safelyHandleMessage_nil_context
    (fn : Option ProtoMessage → HandlerRun) (msg : Option ProtoMessage)
    (r : String) (h : fn msg = .panicked r) :
    (SafelyHandleMessage none fn msg).panicPropagated = false
    ∧ (SafelyHandleMessage none fn msg).loggedPanicValue = some r
    ∧ (SafelyHandleMessage none fn msg).spanMarkedFailed = false := by
  cases msg <;> simp [SafelyHandleMessage, h]

/-- Witness for C10 at a concrete panicking handler, nil context and nil
message. -/
theorem c10_safelyHandleMessage_nil_context_witness :
    (SafelyHandleMessage none (fun _ => .panicked "bad!") none).panicPropagated = false
    ∧ (SafelyHandleMessage none (fun _ => .panicked "bad!") none).loggedPanicValue = some "bad!"
    ∧ (SafelyHandleMessage none (fun _ => .panicked "bad!") none).spanMarkedFailed = false :=
  c10_safelyHandleMessage_nil_context (fun _ => .panicked "bad!") none "bad!" rfl

/-- Claim C9: `updateChainHead(block, state)` returns an explicit error when
the block has not already been saved to the store, and succeeds — making the
block retrievable as the chain head — when the block was saved beforehand. -/
theorem c9_updateChainHead_requires_saved
    (db : Store) (b : Block) (st : BeaconState) :
    (b ∉ db.saved → ∃ e, db.updateChainHead b st = .error e)
    ∧ (b ∈ db.saved →
        db.updateChainHead b st = .ok { db with head := b }
        ∧ ∀ db', db.updateChainHead b st = .ok db' → db'.chainHead = b) := by
  constructor
  · intro h
    refine ⟨"expected block to have been saved before updating head", ?_⟩
    simp [Store.updateChainHead, h]
  · intro h
    refine ⟨by simp [Store.updateChainHead, h], ?_⟩
    intro db' hdb'
    simp [Store.updateChainHead, h] at hdb'
    rw [← hdb']
    rfl

/-- Witness for C9: a concrete store in which the head update succeeds for a
saved block and fails for an unsaved one. -/
theorem c9_updateChainHead_requires_saved_witness :
    (Store.updateChainHead
        { saved := [{ slot := 1, parentRoot := 0 }, { slot := 0, parentRoot := 0 }]
          head := { slot := 0, parentRoot := 0 } }
        { slot := 1, parentRoot := 0 } { finalizedEpoch := 0, justifiedEpoch := 0 })
      = .ok { saved := [{ slot := 1, parentRoot := 0 }, { slot := 0, parentRoot := 0 }]
              head := { slot := 1, parentRoot := 0 } }
    ∧ ∃ e, (Store.updateChainHead
        { saved := [{ slot := 0, parentRoot := 0 }]
          head := { slot := 0, parentRoot := 0 } }
        { slot := 1, parentRoot := 0 } { finalizedEpoch := 0, justifiedEpoch := 0 })
      = .error e := by
  constructor
  · exact ((c9_updateChainHead_requires_saved _ _ _).2 (by decide)).1
  · exact (c9_updateChainHead_requires_saved
      { saved := [{ slot := 0, parentRoot := 0 }], head := { slot := 0, parentRoot := 0 } }
      { slot := 1, parentRoot := 0 } { finalizedEpoch := 0, justifiedEpoch := 0 }).1 (by decide)

/-- The run loop never exits while consuming a stream that contains neither a
cancellation nor a timer tick: ingestion events alone cannot terminate it. -/
theorem runLoop_ingestion_never_exits (evs : List SyncEvent) :
    ∀ s : SyncState, (∀ e ∈ evs, e ≠ SyncEvent.cancel ∧ e ≠ SyncEvent.tick) →
      runLoop s evs = none := by
  induction evs with
  | nil => intro s _; rfl
  | cons e rest ih =>
      intro s h
      have he := h e (List.mem_cons_self e rest)
      have hrest : ∀ x ∈ rest, x ≠ SyncEvent.cancel ∧ x ≠ SyncEvent.tick :=
        fun x hx => h x (List.mem_cons_of_mem _ hx)
      cases e with
      | blockMsg b => simpa [runLoop, loopStep] using ih _ hrest
      | stateMsg st => simpa [runLoop, loopStep] using ih _ hrest
      | badMsg => simpa [runLoop, loopStep] using ih _ hrest
      | tick => exact absurd rfl he.2
      | cancel => exact absurd rfl he.1

/-- Claim C8: the run loop terminates only via two paths — a timer tick while
`isCaughtUp()` holds exits with the handoff event, and cancellation exits
immediately regardless of sync state; block deliveries, state deliveries and
failed handlers always continue the loop. -/
theorem c8_runLoop_exit_paths (s : SyncState) (e : SyncEvent) :
    (loopStep s e = .exit .handoff ↔ e = .tick ∧ s.tracker.isCaughtUp = true)
    ∧ (loopStep s e = .exit .cancelled ↔ e = .cancel)
    ∧ (∀ b, loopStep s (.blockMsg b) = .next (processBlock s b))
    ∧ (∀ st, loopStep s (.stateMsg st) = .next (processState s st))
    ∧ loopStep s .badMsg = .next s
    ∧ (∀ evs, (∀ e' ∈ evs, e' ≠ SyncEvent.cancel ∧ e' ≠ SyncEvent.tick) →
        runLoop s evs = none) := by
  refine ⟨?_, ?_, fun b => rfl, fun st => rfl, rfl,
    fun evs h => runLoop_ingestion_never_exits evs s h⟩
  · cases e <;> simp [loopStep]
  · cases e <;> simp [loopStep]
    cases h : s.tracker.isCaughtUp <;> simp [h]

/-- Witness for C8: a concrete caught-up state exits with handoff on a tick,
a non-caught-up one does not; cancellation exits; a stream of ingestion
events leaves the loop running. -/
theorem c8_runLoop_exit_paths_witness :
    loopStep (SyncState.init { slot := 0, parentRoot := 0 }) SyncEvent.tick
        = StepResult.exit ExitReason.handoff
    ∧ loopStep (SyncState.init { slot := 0, parentRoot := 0 }) SyncEvent.cancel
        = StepResult.exit ExitReason.cancelled
    ∧ runLoop (SyncState.init { slot := 0, parentRoot := 0 })
        [SyncEvent.badMsg, SyncEvent.blockMsg { slot := 5, parentRoot := 77 }] = none := by
  refine ⟨?_, ?_, ?_⟩
  · exact (c8_runLoop_exit_paths (SyncState.init { slot := 0, parentRoot := 0 })
      SyncEvent.tick).1.mpr ⟨rfl, by decide⟩
  · exact (c8_runLoop_exit_paths (SyncState.init { slot := 0, parentRoot := 0 })
      SyncEvent.cancel).2.1.mpr rfl
  · exact (c8_runLoop_exit_paths (SyncState.init { slot := 0, parentRoot := 0 })
      SyncEvent.badMsg).2.2.2.2.2 _ (by decide)

/-- Claim C4: a state snapshot is accepted — `SyncTarget` replaced wholesale
and the `highestObservedSlot` candidate recomputed as
`finalizedEpoch × slotsPerEpoch` — exactly when no target is set yet, or its
finalized epoch is strictly greater than the current target's, or the
finalized epochs are equal and its justified epoch is strictly greater; any
other snapshot is rejected and leaves the engine state unchanged. -/
theorem c4_processState_acceptance (s : SyncState) (st : BeaconState) :
    (acceptTarget s.target st = true ↔
        s.target = none
        ∨ ∃ t, s.target = some t
            ∧ (t.finalizedEpoch < st.finalizedEpoch
               ∨ (st.finalizedEpoch = t.finalizedEpoch ∧ t.justifiedEpoch < st.justifiedEpoch)))
    ∧ (acceptTarget s.target st = true →
        processState s st
          = { s with
                target := some st
                tracker := { s.tracker with
                  highestObservedSlot :=
                    max s.tracker.highestObservedSlot (st.finalizedEpoch * slotsPerEpoch) } })
    ∧ (acceptTarget s.target st = false → processState s st = s) := by
  refine ⟨?_, ?_, ?_⟩
  · cases h : s.target <;> simp [acceptTarget, h]
  · intro h
    simp [processState, h, Tracker.observe]
  · intro h
    simp [processState, h]

/-- Witness for C4: with no target set, a snapshot is accepted and the
observed-slot candidate recorded; with a target at finalized epoch 2, a
snapshot at finalized epoch 1 is rejected and the state is unchanged. -/
theorem c4_processState_acceptance_witness :
    processState
        { store := { saved := [], head := { slot := 0, parentRoot := 0 } }
          tracker := { currentSlot := 0, highestObservedSlot := 0 }
          target := none }
        { finalizedEpoch := 2, justifiedEpoch := 1 }
      = { store := { saved := [], head := { slot := 0, parentRoot := 0 } }
          tracker := { currentSlot := 0, highestObservedSlot := 128 }
          target := some { finalizedEpoch := 2, justifiedEpoch := 1 } }
    ∧ processState
        { store := { saved := [], head := { slot := 0, parentRoot := 0 } }
          tracker := { currentSlot := 0, highestObservedSlot := 128 }
          target := some { finalizedEpoch := 2, justifiedEpoch := 1 } }
        { finalizedEpoch := 1, justifiedEpoch := 5 }
      = { store := { saved := [], head := { slot := 0, parentRoot := 0 } }
          tracker := { currentSlot := 0, highestObservedSlot := 128 }
          target := some { finalizedEpoch := 2, justifiedEpoch := 1 } } := by
  constructor
  · exact ((c4_processState_acceptance
      { store := { saved := [], head := { slot := 0, parentRoot := 0 } }
        tracker := { currentSlot := 0, highestObservedSlot := 0 }
        target := none }
      { finalizedEpoch := 2, justifiedEpoch := 1 }).2.1 (by decide)).trans (by decide)
  · exact (c4_processState_acceptance
      { store := { saved := [], head := { slot := 0, parentRoot := 0 } }
        tracker := { currentSlot := 0, highestObservedSlot := 128 }
        target := some { finalizedEpoch := 2, justifiedEpoch := 1 } }
      { finalizedEpoch := 1, justifiedEpoch := 5 }).2.2 (by decide)

/-- Claim C3, counterexample: the claim quantifies over every sequence of raw
`advance`/`observe` calls, but the single-call sequence `advance(1)` starting
from the freshly constructed tracker (currentSlot = highestObservedSlot = 0)
yields currentSlot = 1 > 0 = highestObservedSlot, so the invariant
`currentSlot ≤ highestObservedSlot` does not hold after every call of an
arbitrary advance/observe sequence. -/
theorem c3_counterexample :
    ¬ (runCalls { currentSlot := 0, highestObservedSlot := 0 }
        [TrackerCall.advance 1]).inv := by
  decide

/-- One dispatched message keeps the tracker invariant and moves both tracker
components weakly upward. -/
theorem applyMsg_tracker_step (s : SyncState) (m : Msg) (h : s.tracker.inv) :
    (applyMsg s m).tracker.inv
    ∧ s.tracker.currentSlot ≤ (applyMsg s m).tracker.currentSlot
    ∧ s.tracker.highestObservedSlot ≤ (applyMsg s m).tracker.highestObservedSlot := by
  unfold Tracker.inv at *
  cases m with
  | block b =>
      simp only [applyMsg, processBlock, Tracker.observe, Tracker.advance]
      split
      · simp only
        omega
      · split
        · split <;> simp only <;> omega
        · simp only
          omega
  | state st =>
      simp only [applyMsg, processState, Tracker.observe]
      split
      · simp only
        omega
      · omega

/-- Claim C3, amended: for every sequence of processed block and state
messages, `currentSlot` and `highestObservedSlot` are monotonically
non-decreasing, and the invariant `currentSlot ≤ highestObservedSlot` holds
after every message (raw `advance` calls alone, outside the observe-then-
advance discipline of the pipelines, can break the invariant). -/
theorem c3_amended_message_monotonicity (s : SyncState) (msgs : List Msg)
    (h : s.tracker.inv) :
    (runMsgs s msgs).tracker.inv
    ∧ s.tracker.currentSlot ≤ (runMsgs s msgs).tracker.currentSlot
    ∧ s.tracker.highestObservedSlot ≤ (runMsgs s msgs).tracker.highestObservedSlot := by
  induction msgs generalizing s with
  | nil => exact ⟨h, le_refl _, le_refl _⟩
  | cons m rest ih =>
      have hstep := applyMsg_tracker_step s m h
      have htail := ih (applyMsg s m) hstep.1
      have hrw : runMsgs s (m :: rest) = runMsgs (applyMsg s m) rest := rfl
      rw [hrw]
      exact ⟨htail.1, le_trans hstep.2.1 htail.2.1, le_trans hstep.2.2 htail.2.2⟩

/-- Witness for the amended C3 at a concrete message sequence containing a
block delivery, a state delivery and a duplicate block. -/
theorem c3_amended_message_monotonicity_witness :
    (runMsgs (SyncState.init { slot := 0, parentRoot := 0 })
        [Msg.block { slot := 1, parentRoot := 0 },
         Msg.state { finalizedEpoch := 1, justifiedEpoch := 0 },
         Msg.block { slot := 1, parentRoot := 0 }]).tracker.inv
    ∧ (SyncState.init { slot := 0, parentRoot := 0 }).tracker.currentSlot
        ≤ (runMsgs (SyncState.init { slot := 0, parentRoot := 0 })
            [Msg.block { slot := 1, parentRoot := 0 },
             Msg.state { finalizedEpoch := 1, justifiedEpoch := 0 },
             Msg.block { slot := 1, parentRoot := 0 }]).tracker.currentSlot := by
  have h := c3_amended_message_monotonicity (SyncState.init { slot := 0, parentRoot := 0 })
    [Msg.block { slot := 1, parentRoot := 0 },
     Msg.state { finalizedEpoch := 1, justifiedEpoch := 0 },
     Msg.block { slot := 1, parentRoot := 0 }] (by decide)
  exact ⟨h.1, h.2.1⟩

/-- Claim C6: delivering the same block twice is idempotent — the engine state
after the second delivery equals the state after the first — and, on any state
satisfying the tracker invariant, a block whose slot is at most `currentSlot`
is ignored without mutating the engine state at all. -/
theorem c6_processBlock_idempotent :
    (∀ (s : SyncState) (b : Block), processBlock (processBlock s b) b = processBlock s b)
    ∧ (∀ (s : SyncState) (b : Block), s.tracker.inv → b.slot ≤ s.tracker.currentSlot →
        processBlock s b = s) := by
  constructor
  · intro s b
    obtain ⟨⟨saved, head⟩, ⟨cur, high⟩, target⟩ := s
    obtain ⟨slot, parent⟩ := b
    simp only [processBlock, Tracker.observe, Tracker.advance, Store.saveBlock]
    by_cases h1 : slot ≤ cur
    · simp only [h1, if_pos, ite_true]
      simp [max_assoc]
    · simp only [h1, ite_false, if_neg]
      by_cases h2 : slot = cur + 1 ∨ parent = hashBlock head
      · have hlt : cur < slot := by omega
        simp [h1, h2, hlt, max_assoc]
      · simp [h1, h2, max_assoc]
  · intro s b hinv hle
    obtain ⟨⟨saved, head⟩, ⟨cur, high⟩, target⟩ := s
    obtain ⟨slot, parent⟩ := b
    simp only [Tracker.inv] at hinv
    simp only at hinv hle
    have hmax : max high slot = high := by omega
    simp [processBlock, Tracker.observe, hle, hmax]

/-- Witness for C6: on a concrete synced state, a stale block at slot 3 with
`currentSlot = 5` is ignored without any mutation. -/
theorem c6_processBlock_idempotent_witness :
    processBlock (SyncState.init { slot := 5, parentRoot := 0 })
        { slot := 3, parentRoot := 0 }
      = SyncState.init { slot := 5, parentRoot := 0 } :=
  c6_processBlock_idempotent.2 (SyncState.init { slot := 5, parentRoot := 0 })
    { slot := 3, parentRoot := 0 } (by decide) (by decide)

/-- Processing a block whose slot is exactly `currentSlot + 1` always accepts
the block, whatever its parent reference: it is persisted, becomes the new
head, and the tracker advances to its slot. -/
theorem processBlock_next (s : SyncState) (b : Block)
    (hslot : b.slot = s.tracker.currentSlot + 1) :
    processBlock s b
      = { s with
            store := { saved := b :: s.store.saved, head := b }
            tracker := { currentSlot := b.slot
                         highestObservedSlot := max s.tracker.highestObservedSlot b.slot } } := by
  have hnle : ¬ b.slot ≤ s.tracker.currentSlot := by omega
  have hlt : s.tracker.currentSlot < b.slot := by omega
  simp [processBlock, Tracker.observe, Tracker.advance, Store.saveBlock, hnle, hslot, hlt]

/-- Running a batch of blocks whose slots step by exactly one from
`currentSlot` accepts every block: the tracker lands on the last delivered
slot and the observed maximum accumulates over all delivered slots. -/
theorem sequential_batch_run :
    ∀ (slots : List Nat) (s : SyncState),
      stepSlots s.tracker.currentSlot slots = true →
      (processBatch s (slots.map (fun x => { slot := x, parentRoot := 0 }))).tracker.currentSlot
          = slots.foldl (fun _ x => x) s.tracker.currentSlot
      ∧ (processBatch s
            (slots.map (fun x => { slot := x, parentRoot := 0 }))).tracker.highestObservedSlot
          = slots.foldl max s.tracker.highestObservedSlot := by
  intro slots
  induction slots with
  | nil => intro s _; exact ⟨rfl, rfl⟩
  | cons x rest ih =>
      intro s h
      simp only [stepSlots, Bool.and_eq_true, decide_eq_true_eq] at h
      obtain ⟨hx, hrest⟩ := h
      have hstep := processBlock_next s { slot := x, parentRoot := 0 } hx
      have hrw : processBatch s
            (((x :: rest) : List Nat).map (fun y => { slot := y, parentRoot := 0 }))
          = processBatch (processBlock s { slot := x, parentRoot := 0 })
              (rest.map (fun y => { slot := y, parentRoot := 0 })) := rfl
      rw [hrw, hstep]
      have htail := ih
        { s with
            store := { saved := { slot := x, parentRoot := 0 } :: s.store.saved
                       head := { slot := x, parentRoot := 0 } }
            tracker := { currentSlot := x
                         highestObservedSlot := max s.tracker.highestObservedSlot x } }
        hrest
      simpa using htail

/-- Claim C5: `processBatch` applies `processBlock` to each element of the
batch in order without short-circuiting on an individual rejection; an empty
batch leaves the engine state unchanged; and a batch of 20 sequential blocks
at slots 1..20 delivered at once onto a genesis head yields
`currentSlot = highestObservedSlot = 20` after a single call. -/
theorem c5_processBatch_behaviour :
    (∀ s : SyncState, processBatch s [] = s)
    ∧ (∀ (s : SyncState) (b : Block) (rest : List Block),
        processBatch s (b :: rest) = processBatch (processBlock s b) rest)
    ∧ (∀ p : Nat,
        (processBatch (SyncState.init { slot := 0, parentRoot := p })
            sequentialBatch).tracker.currentSlot = 20
        ∧ (processBatch (SyncState.init { slot := 0, parentRoot := p })
            sequentialBatch).tracker.highestObservedSlot = 20) := by
  refine ⟨fun _ => rfl, fun _ _ _ => rfl, fun p => ?_⟩
  have hdef : sequentialBatch
      = ([1, 2, 3, 4, 5, 6, 7, 8, 9, 10, 11, 12, 13, 14, 15, 16, 17, 18, 19, 20] : List Nat).map
          (fun s => { slot := s, parentRoot := 0 }) := rfl
  rw [hdef]
  have hseq : stepSlots 0
      [1, 2, 3, 4, 5, 6, 7, 8, 9, 10, 11, 12, 13, 14, 15, 16, 17, 18, 19, 20] = true := by
    decide
  have h := sequential_batch_run
    [1, 2, 3, 4, 5, 6, 7, 8, 9, 10, 11, 12, 13, 14, 15, 16, 17, 18, 19, 20]
    (SyncState.init { slot := 0, parentRoot := p }) hseq
  have hlast : ([1, 2, 3, 4, 5, 6, 7, 8, 9, 10, 11, 12, 13, 14, 15, 16, 17, 18, 19, 20] :
      List Nat).foldl (fun _ x => x) 0 = 20 := by decide
  have hmax : ([1, 2, 3, 4, 5, 6, 7, 8, 9, 10, 11, 12, 13, 14, 15, 16, 17, 18, 19, 20] :
      List Nat).foldl max 0 = 20 := by decide
  exact ⟨h.1.trans hlast, h.2.trans hmax⟩

/-- Processing a block whose parent reference is the hash of the current chain
head and whose slot is beyond `currentSlot` always accepts the block: it is
persisted, becomes the new head, and the tracker advances to its slot. -/
theorem processBlock_chained (s : SyncState) (b : Block)
    (hslot : s.tracker.currentSlot < b.slot)
    (hparent : b.parentRoot = hashBlock s.store.head) :
    processBlock s b
      = { s with
            store := { saved := b :: s.store.saved, head := b }
            tracker := { currentSlot := b.slot
                         highestObservedSlot := max s.tracker.highestObservedSlot b.slot } } := by
  have hnle : ¬ b.slot ≤ s.tracker.currentSlot := by omega
  simp [processBlock, Tracker.observe, Tracker.advance, Store.saveBlock, hnle, hparent, hslot]

/-- Running a batch of blocks chained off the current head, with strictly
ascending slots all beyond `currentSlot`, accepts every block: the tracker
lands on the last delivered slot and the observed maximum accumulates over
all delivered slots. -/
theorem chained_batch_run :
    ∀ (slots : List Nat) (s : SyncState),
      chainedSlots s.tracker.currentSlot slots = true →
      (processBatch s (chainBlocks s.store.head slots)).tracker.currentSlot
          = slots.foldl (fun _ x => x) s.tracker.currentSlot
      ∧ (processBatch s (chainBlocks s.store.head slots)).tracker.highestObservedSlot
          = slots.foldl max s.tracker.highestObservedSlot := by
  intro slots
  induction slots with
  | nil => intro s _; exact ⟨rfl, rfl⟩
  | cons x rest ih =>
      intro s h
      simp only [chainedSlots, Bool.and_eq_true, decide_eq_true_eq] at h
      obtain ⟨hx, hrest⟩ := h
      have hstep := processBlock_chained s { slot := x, parentRoot := hashBlock s.store.head } hx rfl
      have hrw : processBatch s (chainBlocks s.store.head (x :: rest))
          = processBatch
              (processBlock s { slot := x, parentRoot := hashBlock s.store.head })
              (chainBlocks { slot := x, parentRoot := hashBlock s.store.head } rest) := rfl
      rw [hrw, hstep]
      have htail := ih
        { s with
            store := { saved := { slot := x, parentRoot := hashBlock s.store.head } :: s.store.saved
                       head := { slot := x, parentRoot := hashBlock s.store.head } }
            tracker := { currentSlot := x
                         highestObservedSlot := max s.tracker.highestObservedSlot x } }
        hrest
      simpa using htail

/-- Claim C2: delivering the ascending-slot sequence 1..20 with slots
{4, 6, 13, 17} never delivered, each delivered block's parent reference being
the hash of the previously accepted block starting from the stored genesis
head, leaves `currentSlot = 20` and `highestObservedSlot = 20` — skip-slots
do not block progress when the accepted-block chain is contiguous by parent
hash. -/
theorem c2_skipped_slots_progress (p : Nat) :
    (processBatch (SyncState.init { slot := 0, parentRoot := p })
        (chainBlocks { slot := 0, parentRoot := p } skippedScenarioSlots)).tracker.currentSlot = 20
    ∧ (processBatch (SyncState.init { slot := 0, parentRoot := p })
        (chainBlocks { slot := 0, parentRoot := p } skippedScenarioSlots)).tracker.highestObservedSlot
        = 20 := by
  have hchain : chainedSlots 0 skippedScenarioSlots = true := by decide
  have h := chained_batch_run skippedScenarioSlots
    (SyncState.init { slot := 0, parentRoot := p }) hchain
  have hhead : (SyncState.init { slot := 0, parentRoot := p }).store.head
      = { slot := 0, parentRoot := p } := rfl
  have hcur : (SyncState.init { slot := 0, parentRoot := p }).tracker.currentSlot = 0 := rfl
  have hhigh : (SyncState.init { slot := 0, parentRoot := p }).tracker.highestObservedSlot = 0 := rfl
  rw [hhead, hcur, hhigh] at h
  have hlast : skippedScenarioSlots.foldl (fun _ x => x) 0 = 20 := by decide
  have hmax : skippedScenarioSlots.foldl max 0 = 20 := by decide
  exact ⟨h.1.trans hlast, h.2.trans hmax⟩

/-- Claim C1, counterexample: after the engine has already accepted a first
block (two blocks are then persisted, the genesis head plus one), a block at
slot 3 — not equal to `currentSlot + 1 = 2` — whose parent reference matches
the current head is still accepted and advances `currentSlot` from 1 to 3,
contradicting the claim that outside the very first accepted block only
`block.slot == currentSlot + 1` is persisted and anything else leaves
`currentSlot` unchanged. -/
theorem c1_counterexample :
    let g : Block := { slot := 0, parentRoot := 0 }
    let b1 : Block := { slot := 1, parentRoot := hashBlock g }
    let b3 : Block := { slot := 3, parentRoot := hashBlock b1 }
    let s1 := processBlock (SyncState.init g) b1
    let s2 := processBlock s1 b3
    s1.tracker.currentSlot = 1
    ∧ s1.store.saved.length = 2
    ∧ b3.slot ≠ s1.tracker.currentSlot + 1
    ∧ s2.tracker.currentSlot = 3 := by
  decide

/-- Claim C1, amended: for every delivered block, `processBlock` records
`observe(block.slot)`, and it persists the block (making it the new chain
head) and advances `currentSlot` to `block.slot` if and only if
`block.slot == currentSlot + 1`, or `block.slot > currentSlot` and the
block's parent reference matches the hash of the local chain head — at any
point during sync, not only for the very first accepted block; any other
block leaves `currentSlot` and the store unchanged. -/
theorem c1_amended_processBlock_acceptance (s : SyncState) (b : Block) :
    (processBlock s b).tracker.highestObservedSlot
        = max s.tracker.highestObservedSlot b.slot
    ∧ ((processBlock s b).store.saved = b :: s.store.saved
        ∧ (processBlock s b).store.head = b
        ∧ (processBlock s b).tracker.currentSlot = b.slot
      ↔ (b.slot = s.tracker.currentSlot + 1
          ∨ (s.tracker.currentSlot < b.slot ∧ b.parentRoot = hashBlock s.store.head)))
    ∧ (¬ (b.slot = s.tracker.currentSlot + 1
          ∨ (s.tracker.currentSlot < b.slot ∧ b.parentRoot = hashBlock s.store.head))
        → (processBlock s b).tracker.currentSlot = s.tracker.currentSlot
          ∧ (processBlock s b).store = s.store) := by
  obtain ⟨⟨saved, head⟩, ⟨cur, high⟩, target⟩ := s
  obtain ⟨slot, parent⟩ := b
  have hcons : saved ≠ { slot := slot, parentRoot := parent } :: saved := by
    intro hh
    have := congrArg List.length hh
    simp at this
  by_cases h1 : slot ≤ cur
  · have hne : ¬ (slot = cur + 1 ∨ cur < slot ∧ parent = hashBlock head) := by
      rintro (h | ⟨h, _⟩) <;> omega
    have hres : processBlock ⟨⟨saved, head⟩, ⟨cur, high⟩, target⟩ ⟨slot, parent⟩
        = ⟨⟨saved, head⟩, ⟨cur, max high slot⟩, target⟩ := by
      simp [processBlock, Tracker.observe, h1]
    rw [hres]
    refine ⟨rfl, ?_, fun _ => ⟨rfl, rfl⟩⟩
    constructor
    · rintro ⟨hsaved, -⟩
      exact absurd hsaved hcons
    · intro h
      exact absurd h hne
  · by_cases h2 : slot = cur + 1 ∨ parent = hashBlock head
    · have hcond : slot = cur + 1 ∨ cur < slot ∧ parent = hashBlock head := by
        rcases h2 with h | h
        · exact Or.inl h
        · exact Or.inr ⟨by omega, h⟩
      have hlt : cur < slot := by omega
      have hres : processBlock ⟨⟨saved, head⟩, ⟨cur, high⟩, target⟩ ⟨slot, parent⟩
          = ⟨⟨{ slot := slot, parentRoot := parent } :: saved,
              { slot := slot, parentRoot := parent }⟩,
             ⟨slot, max high slot⟩, target⟩ := by
        simp [processBlock, Tracker.observe, Tracker.advance, Store.saveBlock, h1, h2, hlt]
      rw [hres]
      refine ⟨rfl, ?_, ?_⟩
      · exact ⟨fun _ => hcond, fun _ => ⟨rfl, rfl, rfl⟩⟩
      · intro hfalse
        exact absurd hcond hfalse
    · have hne : ¬ (slot = cur + 1 ∨ cur < slot ∧ parent = hashBlock head) := by
        rintro (h | ⟨h, hp⟩)
        · exact h2 (Or.inl h)
        · exact h2 (Or.inr hp)
      have hres : processBlock ⟨⟨saved, head⟩, ⟨cur, high⟩, target⟩ ⟨slot, parent⟩
          = ⟨⟨saved, head⟩, ⟨cur, max high slot⟩, target⟩ := by
        simp [processBlock, Tracker.observe, h1, h2]
      rw [hres]
      refine ⟨rfl, ?_, fun _ => ⟨rfl, rfl⟩⟩
      constructor
      · rintro ⟨hsaved, -⟩
        exact absurd hsaved hcons
      · intro h
        exact absurd h hne

/-- Witness for the amended C1: a concrete out-of-order block (slot 5 onto a
fresh genesis state, parent matching nothing) leaves `currentSlot` and the
store unchanged. -/
theorem c1_amended_processBlock_acceptance_witness :
    (processBlock (SyncState.init { slot := 0, parentRoot := 0 })
        { slot := 5, parentRoot := 99 }).tracker.currentSlot
      = (SyncState.init { slot := 0, parentRoot := 0 }).tracker.currentSlot
    ∧ (processBlock (SyncState.init { slot := 0, parentRoot := 0 })
        { slot := 5, parentRoot := 99 }).store
      = (SyncState.init { slot := 0, parentRoot := 0 }).store :=
  (c1_amended_processBlock_acceptance (SyncState.init { slot := 0, parentRoot := 0 })
    { slot := 5, parentRoot := 99 }).2.2 (by decide)
